import Mathlib

/-!
# VideoSubX web client — verification of the state-reconciliation layer

Shallow embedding of the client logic in `static/script.js` (canonical,
cache-aware variant): the log consolidator (`logToConsole`), the local-input
upload state machine (`setLocalInputState`, `refreshLocalInputState`,
`uploadLocalInputWithProgress`, the file-selection change handler), the start
command handler (`btnStart` click), and the WebSocket reconnect policy
(`connectWebSocket`).  DOM writes are modelled as explicit state values and
effect lists; network results are passed in as parameters.
-/

namespace VideoSubX

/-! ## Log consolidator -/

/-- `pat` occurs as a contiguous sublist of the haystack
(JS `String.prototype.includes` over the character list). -/
def listContains (pat : List Char) : List Char → Bool
  | [] => pat.isEmpty
  | c :: rest => pat.isPrefixOf (c :: rest) || listContains pat rest

/-- JS `s.includes(pat)`. -/
def strIncludes (s pat : String) : Bool :=
  listContains pat.toList s.toList

/-- `line.includes("%") || line.includes("it/s")` — the progress-line
classification used in `logToConsole`. -/
def isProgressLine (line : String) : Bool :=
  strIncludes line "%" || strIncludes line "it/s"

/-- Whether the display buffer's trailing entry exists and is progress-like
(`lastChild && (lastChild.textContent.includes("%") || ...)`). -/
def lastIsProgress (buffer : List String) : Bool :=
  match buffer.getLast? with
  | some l => isProgressLine l
  | none => false

/-- One iteration of the `forEach` body of `logToConsole`: skip empty lines;
if the trailing entry and the new line are both progress-like, overwrite the
trailing entry; else append a new entry. -/
def logStep (buffer : List String) (line : String) : List String :=
  if line = "" then buffer
  else if lastIsProgress buffer && isProgressLine line then
    buffer.dropLast ++ [line]
  else
    buffer ++ [line]

/-- Process a list of already-split lines (the `lines.forEach` loop). -/
def logLines (buffer : List String) (lines : List String) : List String :=
  lines.foldl logStep buffer

/-- Accumulator pass over the character list for `text.split("\n")`: emit the
collected characters at each newline and at the end. -/
def splitLinesAux (cur : List Char) : List Char → List String
  | [] => [String.mk cur.reverse]
  | c :: rest =>
      if c = '\n' then String.mk cur.reverse :: splitLinesAux [] rest
      else splitLinesAux (c :: cur) rest

/-- JS `text.split("\n")` (a trailing newline yields a trailing empty line). -/
def splitNewlines (text : String) : List String :=
  splitLinesAux [] text.toList

/-- `logToConsole(text)`: split the chunk on newlines and process each line
(the guard `if (!text) return` is the `text = ""` case, which splits to a
single empty line and is skipped by `logStep`). -/
def logToConsole (buffer : List String) (text : String) : List String :=
  logLines buffer (splitNewlines text)

/-- Number of discrete (not progress-like) lines in an input sequence. -/
def discreteCount (lines : List String) : Nat :=
  (lines.filter (fun l => !isProgressLine l)).length

/-- Number of maximal runs of progress-like lines, given whether the line just
before the sequence was progress-like: counts each progress-like line whose
predecessor is absent or discrete. -/
def runStarts : Bool → List String → Nat
  | _, [] => 0
  | p, l :: ls => (if isProgressLine l && !p then 1 else 0) + runStarts (isProgressLine l) ls

/-! ## Local-input upload state machine -/

/-- `localInputState.mode ∈ {"empty","uploading","ready","error"}`. -/
inductive UploadMode
  | empty
  | uploading
  | ready
  | error
deriving DecidableEq, Repr

/-- The module-level `localInputState` object: `mode`, `fileName`, `progress`. -/
structure LocalInputState where
  mode : UploadMode
  fileName : String
  progress : Nat
deriving DecidableEq, Repr

/-- `setLocalInputState(mode, fileName, progress)` — replaces all three fields
(`fileName || ""` and `progress || 0` are identities on `String`/`Nat` here). -/
def setLocalInputState (mode : UploadMode) (fileName : String) (progress : Nat) :
    LocalInputState :=
  ⟨mode, fileName, progress⟩

/-- Result of the reconciliation pull `GET /local_input/state`: either the
`apiCall` threw (`failure`), or it returned a payload with a `state` string and
an optional `file.name` (`none` when `data.file?.name` is absent). -/
inductive PullResult
  | failure
  | success (state : String) (fileName : Option String)
deriving DecidableEq, Repr

/-- `data?.state === "ready" && data.file?.name` — the payload reports a ready
server-side cache with a (truthy, hence non-empty) file name. -/
def pullReportsReady : PullResult → Bool
  | .success st (some name) => st = "ready" && name ≠ ""
  | _ => false

/-- `refreshLocalInputState()` once the pull result is in hand: on a ready
payload set `("ready", name, 100)`, on any other payload or on a thrown error
set `("empty")`.  The prior state `_s` is read by no branch. -/
def refreshLocalInputState (res : PullResult) (_s : LocalInputState) :
    LocalInputState :=
  match res with
  | .success st (some name) =>
      if st = "ready" && name ≠ "" then setLocalInputState .ready name 100
      else setLocalInputState .empty "" 0
  | .success _ none => setLocalInputState .empty "" 0
  | .failure => setLocalInputState .empty "" 0

/-- An XHR upload progress event (`lengthComputable`, `loaded`, `total`). -/
structure ProgressEvent where
  lengthComputable : Bool
  loaded : Nat
  total : Nat
deriving DecidableEq, Repr

/-- `Math.min(99, Math.floor((event.loaded / event.total) * 100))`, with the
real-valued floor rendered as natural division. -/
def uploadProgressPercent (loaded total : Nat) : Nat :=
  min 99 (loaded * 100 / total)

/-- The `xhr.upload.onprogress` handler: ignore events whose length is not
computable, else set `("uploading", file.name, percent)`. -/
def onUploadProgress (file : String) (ev : ProgressEvent) (s : LocalInputState) :
    LocalInputState :=
  if ev.lengthComputable then
    setLocalInputState .uploading file (uploadProgressPercent ev.loaded ev.total)
  else s

/-- The `xhr.onload` handler, given the parsed response body fields
(`respFilename` = `data.filename`, `respMessage` = `data.message`): on a 2xx
status set `("uploading", file.name, 100)` and resolve with the payload; else
leave the state alone and reject with `data.message || "HTTP <status>"`. -/
def onUploadLoad (file : String) (status : Nat)
    (respFilename respMessage : Option String) (s : LocalInputState) :
    LocalInputState × Except String (Option String) :=
  if 200 ≤ status ∧ status < 300 then
    (setLocalInputState .uploading file 100, Except.ok respFilename)
  else
    (s, Except.error (respMessage.getD ("HTTP " ++ toString status)))

/-- The `xhr.onerror` handler: reject with `"Network error"`, no state write. -/
def onUploadError (s : LocalInputState) : LocalInputState × Except String (Option String) :=
  (s, Except.error "Network error")

/-- `result?.filename || file.name` — the saved name chosen by the change
handler after a successful upload (server name when present and truthy). -/
def savedUploadName (respFilename : Option String) (localName : String) : String :=
  match respFilename with
  | some n => if n = "" then localName else n
  | none => localName

/-- The `try`/`catch` part of the `videoUploadInput` change handler, applied to
the settled outcome of `uploadLocalInputWithProgress`: success finalizes to
`("ready", savedName, 100)`, failure to `("error", file.name, 0)`. -/
def uploadChangeFlowResult (file : String) (outcome : Except String (Option String)) :
    LocalInputState :=
  match outcome with
  | .ok respFilename => setLocalInputState .ready (savedUploadName respFilename file) 100
  | .error _ => setLocalInputState .error file 0

/-- The whole change handler including its `finally` block, which awaits
`refreshLocalInputState()`: the state left once the handler has fully settled. -/
def videoUploadChangeFinal (file : String) (outcome : Except String (Option String))
    (pull : PullResult) : LocalInputState :=
  refreshLocalInputState pull (uploadChangeFlowResult file outcome)

/-! ## Start command handler -/

/-- Client-visible actions of the `btnStart` click handler: the local rejection
log line, or one remote call (`POST /start` with the trimmed URL, or
`POST /start_local`).  Log lines printed after the awaited call returns depend
on the network reply and are not modelled. -/
inductive StartEffect
  | logLine (text : String)
  | callStart (url : String)
  | callStartLocal
deriving DecidableEq, Repr

/-- JS `s.trim()`: strip whitespace from both ends of the string. -/
def jsTrim (s : String) : String :=
  String.mk
    (((s.toList.dropWhile Char.isWhitespace).reverse.dropWhile
        Char.isWhitespace).reverse)

/-- The `btnStart` click handler: trim the URL; while uploading, log and
return; else issue exactly one remote call, URL mode iff the trimmed URL is
non-empty.  The handler writes `localInputState` in no branch. -/
def btnStartClick (urlRaw : String) (s : LocalInputState) :
    List StartEffect × LocalInputState :=
  let url := jsTrim urlRaw
  if s.mode = .uploading then
    ([.logLine "!! 文件上传中，请稍后再开始任务"], s)
  else if url ≠ "" then
    ([.callStart url], s)
  else
    ([.callStartLocal], s)

/-! ## WebSocket reconnect policy -/

/-- Client-visible actions of the `connectWebSocket` event handlers. -/
inductive WsEffect
  | setStatus (st : String)
  | emitLog (text : String)
  | scheduleReconnect (delayMs : Nat)
deriving DecidableEq, Repr

/-- `ws.onopen`: mark the channel open and emit the synthetic connected line
to `logToConsole`. -/
def wsOnOpen : List WsEffect :=
  [.setStatus "OPEN", .emitLog ">> 日志服务已连接"]

/-- `ws.onclose`: mark closed and `setTimeout(connectWebSocket, 3000)`. -/
def wsOnClose : List WsEffect :=
  [.setStatus "CLOSED", .scheduleReconnect 3000]

/-- `ws.onerror`: mark closed only — it schedules no reconnect itself. -/
def wsOnError : List WsEffect :=
  [.setStatus "CLOSED"]

/-- Whether an effect is a reconnect scheduling. -/
def isScheduleReconnect : WsEffect → Bool
  | .scheduleReconnect _ => true
  | _ => false

/-- The absolute time at which a reconnect scheduled at `closedAt` fires
(`setTimeout` with a 3000 ms delay). -/
def reconnectFireTime (closedAt : Nat) : Nat :=
  closedAt + 3000

/-! ## Helper lemmas about the consolidator -/

theorem lastIsProgress_append (b : List String) (l : String) :
    lastIsProgress (b ++ [l]) = isProgressLine l := by
  simp [lastIsProgress]

theorem lastIsProgress_nil_of_eq (b : List String) (h : b = []) :
    lastIsProgress b = false := by
  subst h; rfl

theorem logStep_discrete (b : List String) (l : String)
    (hne : l ≠ "") (hp : isProgressLine l = false) :
    logStep b l = b ++ [l] := by
  simp [logStep, hne, hp]

theorem logStep_progress_fresh (b : List String) (l : String)
    (hne : l ≠ "") (hp : isProgressLine l = true) (hb : lastIsProgress b = false) :
    logStep b l = b ++ [l] := by
  simp [logStep, hne, hp, hb]

theorem logStep_progress_replace (b : List String) (l : String)
    (hne : l ≠ "") (hp : isProgressLine l = true) (hb : lastIsProgress b = true) :
    logStep b l = b.dropLast ++ [l] := by
  simp [logStep, hne, hp, hb]

theorem logLines_progress_run_aux (run : List String) :
    ∀ (b : List String) (p : String), isProgressLine p = true →
      (∀ l ∈ run, isProgressLine l = true ∧ l ≠ "") →
      logLines (b ++ [p]) run = b ++ [(p :: run).getLast (List.cons_ne_nil p run)] := by
  induction run with
  | nil =>
      intro b p _ _
      simp [logLines]
  | cons x rest ih =>
      intro b p hp hall
      have hx := hall x (by simp)
      have hstep : logStep (b ++ [p]) x = b ++ [x] := by
        rw [logStep_progress_replace (b ++ [p]) x hx.2 hx.1
          (by rw [lastIsProgress_append]; exact hp)]
        simp
      have hrest : ∀ l ∈ rest, isProgressLine l = true ∧ l ≠ "" := by
        intro l hl; exact hall l (by simp [hl])
      calc logLines (b ++ [p]) (x :: rest)
          = logLines (logStep (b ++ [p]) x) rest := rfl
        _ = logLines (b ++ [x]) rest := by rw [hstep]
        _ = b ++ [(x :: rest).getLast (List.cons_ne_nil x rest)] := ih b x hx.1 hrest
        _ = b ++ [(p :: x :: rest).getLast (List.cons_ne_nil p (x :: rest))] := by
              rw [List.getLast_cons (List.cons_ne_nil x rest)]

theorem logLines_progress_run (buf : List String) (run : List String) (h : run ≠ [])
    (hbuf : lastIsProgress buf = false)
    (hall : ∀ l ∈ run, isProgressLine l = true ∧ l ≠ "") :
    logLines buf run = buf ++ [run.getLast h] := by
  cases run with
  | nil => exact absurd rfl h
  | cons x rest =>
      have hx := hall x (by simp)
      have hstep : logStep buf x = buf ++ [x] :=
        logStep_progress_fresh buf x hx.2 hx.1 hbuf
      have hrest : ∀ l ∈ rest, isProgressLine l = true ∧ l ≠ "" := by
        intro l hl; exact hall l (by simp [hl])
      calc logLines buf (x :: rest)
          = logLines (logStep buf x) rest := rfl
        _ = logLines (buf ++ [x]) rest := by rw [hstep]
        _ = buf ++ [(x :: rest).getLast (List.cons_ne_nil x rest)] :=
              logLines_progress_run_aux rest buf x hx.1 hrest

theorem logLines_length_aux (lines : List String) :
    ∀ b : List String, (∀ l ∈ lines, l ≠ "") →
      (logLines b lines).length =
        b.length + discreteCount lines + runStarts (lastIsProgress b) lines := by
  induction lines with
  | nil =>
      intro b _
      simp [logLines, discreteCount, runStarts]
  | cons l ls ih =>
      intro b hne
      have hl : l ≠ "" := hne l (by simp)
      have hls : ∀ x ∈ ls, x ≠ "" := fun x hx => hne x (by simp [hx])
      cases hp : isProgressLine l with
      | false =>
          have hstep : logStep b l = b ++ [l] := logStep_discrete b l hl hp
          have : logLines b (l :: ls) = logLines (b ++ [l]) ls := by
            simp [logLines, hstep]
          rw [this, ih (b ++ [l]) hls, lastIsProgress_append]
          simp [discreteCount, runStarts, hp]
          omega
      | true =>
          cases hb : lastIsProgress b with
          | false =>
              have hstep : logStep b l = b ++ [l] := logStep_progress_fresh b l hl hp hb
              have : logLines b (l :: ls) = logLines (b ++ [l]) ls := by
                simp [logLines, hstep]
              rw [this, ih (b ++ [l]) hls, lastIsProgress_append]
              simp [discreteCount, runStarts, hp]
              omega
          | true =>
              have hbne : b ≠ [] := by
                intro hnil
                rw [lastIsProgress_nil_of_eq b hnil] at hb
                exact Bool.false_ne_true hb
              have hstep : logStep b l = b.dropLast ++ [l] :=
                logStep_progress_replace b l hl hp hb
              have : logLines b (l :: ls) = logLines (b.dropLast ++ [l]) ls := by
                simp [logLines, hstep]
              rw [this, ih (b.dropLast ++ [l]) hls, lastIsProgress_append]
              have hlen : (b.dropLast ++ [l]).length = b.length := by
                have : b.length ≠ 0 := by
                  intro h0; exact hbne (List.eq_nil_of_length_eq_zero h0)
                simp [List.length_dropLast]
                omega
              rw [hlen]
              simp [discreteCount, runStarts, hp]

/-! ## Claim theorems -/

/-- C2: two consecutive progress-like lines collapse into one trailing buffer
entry holding the most recent line, while a discrete line always appends a new
entry even if identical to the previous one; feeding the chunks `"50%\n"`,
`"51%\n"`, `"done\n"`, `"done\n"` yields the buffer `["51%", "done", "done"]`;
and a run of progress-like lines with no intervening discrete line adds exactly
one entry whose content is the last line of the run. -/
theorem consolidator_collapse_behavior :
    (logToConsole (logToConsole (logToConsole (logToConsole [] "50%\n") "51%\n")
        "done\n") "done\n" = ["51%", "done", "done"]) ∧
    (∀ buf line, line ≠ "" → isProgressLine line = false →
      logStep buf line = buf ++ [line]) ∧
    (∀ buf run (h : run ≠ []), lastIsProgress buf = false →
      (∀ l ∈ run, isProgressLine l = true ∧ l ≠ "") →
      logLines buf run = buf ++ [run.getLast h]) := by
  refine ⟨by decide, ?_, ?_⟩
  · intro buf line hne hp
    exact logStep_discrete buf line hne hp
  · intro buf run h hbuf hall
    exact logLines_progress_run buf run h hbuf hall

/-- C2 witness: a discrete line appends to a progress-like trailing entry, and
a concrete two-line progress run after a discrete entry collapses to its last
line. -/
theorem consolidator_collapse_behavior_witness :
    logStep ["51%"] "done" = ["51%", "done"] ∧
    logLines ["done"] ["10%", "99%"] = ["done", "99%"] := by
  constructor
  · exact consolidator_collapse_behavior.2.1 ["51%"] "done" (by decide) (by decide)
  · have h := consolidator_collapse_behavior.2.2 ["done"] ["10%", "99%"]
      (by decide) (by decide) (by decide)
    exact h.trans (by decide)

/-- C3: from an empty buffer, the final number of buffer entries equals the
number of discrete lines plus one for each maximal run of progress-like lines
(one entry per stretch of progress-like lines preceding the next discrete line
or the end of input). -/
theorem consolidator_entry_count (lines : List String)
    (hne : ∀ l ∈ lines, l ≠ "") :
    (logLines [] lines).length = discreteCount lines + runStarts false lines := by
  have h := logLines_length_aux lines [] hne
  simpa [lastIsProgress] using h

/-- C3 witness: `["50%", "ok", "51%", "done"]` has two discrete lines and two
progress runs, and the buffer indeed ends with four entries. -/
theorem consolidator_entry_count_witness :
    (logLines [] ["50%", "ok", "51%", "done"]).length =
      discreteCount ["50%", "ok", "51%", "done"] +
        runStarts false ["50%", "ok", "51%", "done"] ∧
    (logLines [] ["50%", "ok", "51%", "done"]).length = 4 := by
  constructor
  · exact consolidator_entry_count ["50%", "ok", "51%", "done"] (by decide)
  · decide

/-- C1 counterexample: when the reconciliation pull's result arrives while the
session is `Uploading`, the result is not ignored — a ready payload moves the
session to `Ready` and a failed pull moves it to `Empty`. -/
theorem pull_overrides_uploading_cex :
    (refreshLocalInputState (.success "ready" (some "b.mp4"))
        ⟨.uploading, "a.mp4", 42⟩).mode = .ready ∧
    (refreshLocalInputState .failure ⟨.uploading, "a.mp4", 42⟩).mode = .empty := by
  decide

/-- C1 amended: the reconciliation pull ignores the prior session entirely —
its result depends only on the pull payload, and it always leaves the session
in mode `Ready` or `Empty`, even when the prior mode was `Uploading`. -/
theorem pull_ignores_prior_state (res : PullResult) (s t : LocalInputState) :
    refreshLocalInputState res s = refreshLocalInputState res t ∧
    ((refreshLocalInputState res s).mode = .ready ∨
      (refreshLocalInputState res s).mode = .empty) := by
  cases res with
  | failure => exact ⟨rfl, Or.inr rfl⟩
  | success st name? =>
      cases name? with
      | none => exact ⟨rfl, Or.inr rfl⟩
      | some name =>
          refine ⟨rfl, ?_⟩
          simp only [refreshLocalInputState, setLocalInputState]
          split
          · exact Or.inl rfl
          · exact Or.inr rfl

/-- C10: whenever the reconciliation pull fails, or succeeds without reporting
a ready state with a file name, the session is reset to `Empty` regardless of
its prior value. -/
theorem pull_nonready_resets_to_empty (res : PullResult) (s : LocalInputState)
    (h : pullReportsReady res = false) :
    refreshLocalInputState res s = setLocalInputState .empty "" 0 := by
  cases res with
  | failure => rfl
  | success st name? =>
      cases name? with
      | none => rfl
      | some name =>
          simp only [refreshLocalInputState]
          rw [if_neg]
          intro hc
          simp only [pullReportsReady] at h
          exact Bool.false_ne_true (h.symm.trans hc)

/-- C10 witness: a transient pull failure erases a previously `Ready`
session. -/
theorem pull_nonready_resets_to_empty_witness :
    refreshLocalInputState .failure ⟨.ready, "a.mp4", 100⟩ =
      setLocalInputState .empty "" 0 :=
  pull_nonready_resets_to_empty .failure ⟨.ready, "a.mp4", 100⟩ (by decide)

/-- C4: every byte-progress update with a computable length sets progress to
`min(99, floor(loaded/total*100))`, which is always below 100; the computed
percentage is monotone non-decreasing in the bytes loaded; and the load
handler sets progress 100 exactly on a 2xx status, leaving the state untouched
otherwise. -/
theorem upload_progress_capped_monotone :
    (∀ file ev s, ev.lengthComputable = true →
      onUploadProgress file ev s =
        setLocalInputState .uploading file (uploadProgressPercent ev.loaded ev.total) ∧
      uploadProgressPercent ev.loaded ev.total < 100) ∧
    (∀ loaded loaded' total, loaded ≤ loaded' →
      uploadProgressPercent loaded total ≤ uploadProgressPercent loaded' total) ∧
    (∀ file status rf rm s,
      (200 ≤ status ∧ status < 300 →
        (onUploadLoad file status rf rm s).1 = setLocalInputState .uploading file 100) ∧
      (¬(200 ≤ status ∧ status < 300) → (onUploadLoad file status rf rm s).1 = s)) := by
  refine ⟨?_, ?_, ?_⟩
  · intro file ev s h
    refine ⟨by simp [onUploadProgress, h], ?_⟩
    have : uploadProgressPercent ev.loaded ev.total ≤ 99 := min_le_left _ _
    omega
  · intro loaded loaded' total h
    exact min_le_min (le_refl 99)
      (Nat.div_le_div_right (Nat.mul_le_mul_right 100 h))
  · intro file status rf rm s
    constructor
    · intro h
      simp [onUploadLoad, h]
    · intro h
      simp [onUploadLoad, h]

/-- C4 witness: a concrete progress event sets `min(99, 55)`, 100·110/100 is
still capped at 99, 10 % ≤ 55 %, a 200 response sets progress 100, and a 500
response leaves the state unchanged. -/
theorem upload_progress_capped_monotone_witness :
    onUploadProgress "a.mp4" ⟨true, 55, 100⟩ ⟨.uploading, "a.mp4", 10⟩ =
      setLocalInputState .uploading "a.mp4" 55 ∧
    uploadProgressPercent 110 100 < 100 ∧
    uploadProgressPercent 10 100 ≤ uploadProgressPercent 55 100 ∧
    (onUploadLoad "a.mp4" 200 (some "b.mp4") none ⟨.uploading, "a.mp4", 99⟩).1 =
      setLocalInputState .uploading "a.mp4" 100 ∧
    (onUploadLoad "a.mp4" 500 none (some "boom") ⟨.uploading, "a.mp4", 99⟩).1 =
      ⟨.uploading, "a.mp4", 99⟩ := by
  refine ⟨?_, ?_, ?_, ?_, ?_⟩
  · exact ((upload_progress_capped_monotone.1 "a.mp4" ⟨true, 55, 100⟩
      ⟨.uploading, "a.mp4", 10⟩ rfl).1).trans (by decide)
  · exact (upload_progress_capped_monotone.1 "x" ⟨true, 110, 100⟩
      ⟨.empty, "", 0⟩ rfl).2
  · exact upload_progress_capped_monotone.2.1 10 55 100 (by decide)
  · exact (upload_progress_capped_monotone.2.2 "a.mp4" 200 (some "b.mp4") none
      ⟨.uploading, "a.mp4", 99⟩).1 (by decide)
  · exact (upload_progress_capped_monotone.2.2 "a.mp4" 500 none (some "boom")
      ⟨.uploading, "a.mp4", 99⟩).2 (by decide)

/-- C5: on a 2xx response the load handler first sets
`("uploading", file, 100)` and resolves with the payload; the change handler
then finalizes to `("ready", savedName, 100)` where the saved name is the
server-returned filename when present and non-empty, else the local name. -/
theorem upload_success_finalize (file : String) (status : Nat)
    (rf rm : Option String) (s : LocalInputState)
    (h : 200 ≤ status ∧ status < 300) :
    (onUploadLoad file status rf rm s).1 = setLocalInputState .uploading file 100 ∧
    (onUploadLoad file status rf rm s).2 = Except.ok rf ∧
    uploadChangeFlowResult file (onUploadLoad file status rf rm s).2 =
      setLocalInputState .ready (savedUploadName rf file) 100 ∧
    (∀ n : String, n ≠ "" → savedUploadName (some n) file = n) ∧
    savedUploadName none file = file := by
  refine ⟨by simp [onUploadLoad, h], by simp [onUploadLoad, h], ?_, ?_, rfl⟩
  · have h2 : (onUploadLoad file status rf rm s).2 = Except.ok rf := by
      simp [onUploadLoad, h]
    rw [h2]
    rfl
  · intro n hn
    simp [savedUploadName, hn]

/-- C5 witness: the scenario — select "a.mp4", three progress callbacks
reaching 10/55/99 %, then a 200 response carrying the canonical name
"server_a.mp4" — ends `Ready` with the server's name. -/
theorem upload_success_finalize_witness :
    onUploadProgress "a.mp4" ⟨true, 99, 100⟩
        (onUploadProgress "a.mp4" ⟨true, 55, 100⟩
          (onUploadProgress "a.mp4" ⟨true, 10, 100⟩
            (setLocalInputState .uploading "a.mp4" 0))) =
      setLocalInputState .uploading "a.mp4" 99 ∧
    uploadChangeFlowResult "a.mp4"
        (onUploadLoad "a.mp4" 200 (some "server_a.mp4") none
          (setLocalInputState .uploading "a.mp4" 99)).2 =
      setLocalInputState .ready "server_a.mp4" 100 := by
  constructor
  · decide
  · exact ((upload_success_finalize "a.mp4" 200 (some "server_a.mp4") none
      (setLocalInputState .uploading "a.mp4" 99) (by decide)).2.2.1).trans (by decide)

/-- C6: while the session is `Uploading`, the start click only emits the
rejection log line — no `/start` or `/start_local` call is issued and the
state is unchanged. -/
theorem start_rejected_while_uploading (url : String) (s : LocalInputState)
    (h : s.mode = .uploading) :
    btnStartClick url s = ([.logLine "!! 文件上传中，请稍后再开始任务"], s) ∧
    (∀ e ∈ (btnStartClick url s).1,
      (∀ u, e ≠ StartEffect.callStart u) ∧ e ≠ StartEffect.callStartLocal) := by
  have heq : btnStartClick url s = ([.logLine "!! 文件上传中，请稍后再开始任务"], s) := by
    simp [btnStartClick, h]
  refine ⟨heq, ?_⟩
  rw [heq]
  intro e he
  simp only [List.mem_singleton] at he
  subst he
  exact ⟨fun u => by simp, by simp⟩

/-- C6 witness: with a non-empty URL and an uploading session, the click is
rejected with only the log line. -/
theorem start_rejected_while_uploading_witness :
    btnStartClick "https://youtu.be/x" ⟨.uploading, "a.mp4", 50⟩ =
      ([.logLine "!! 文件上传中，请稍后再开始任务"], ⟨.uploading, "a.mp4", 50⟩) :=
  (start_rejected_while_uploading "https://youtu.be/x"
    ⟨.uploading, "a.mp4", 50⟩ rfl).1

/-- C7: when not uploading, a non-empty trimmed URL always takes the URL path
(`POST /start`), whatever the session mode (in particular `Ready`); and the
local-cache call (`POST /start_local`) is only ever issued when the trimmed
URL is empty. -/
theorem start_url_precedence :
    (∀ url s, s.mode ≠ .uploading → jsTrim url ≠ "" →
      (btnStartClick url s).1 = [StartEffect.callStart (jsTrim url)]) ∧
    (∀ url s, StartEffect.callStartLocal ∈ (btnStartClick url s).1 →
      jsTrim url = "") := by
  constructor
  · intro url s hmode hurl
    simp [btnStartClick, hmode, hurl]
  · intro url s hmem
    by_cases hmode : s.mode = .uploading
    · simp [btnStartClick, hmode] at hmem
    · by_cases hurl : jsTrim url = ""
      · exact hurl
      · simp [btnStartClick, hmode, hurl] at hmem

/-- C7 witness: a non-empty URL with a `Ready` local session takes the URL
path. -/
theorem start_url_precedence_witness :
    (btnStartClick "https://youtu.be/x" ⟨.ready, "a.mp4", 100⟩).1 =
      [StartEffect.callStart (jsTrim "https://youtu.be/x")] :=
  start_url_precedence.1 "https://youtu.be/x" ⟨.ready, "a.mp4", 100⟩
    (by decide) (by decide)

/-- C8 counterexample: a transport-error upload of "a.mp4" does set
`("error", "a.mp4", 0)`, but the handler's `finally` block then awaits the
reconciliation pull, and once that pull settles (here: it fails) the session
is `Empty`, not `Error` — with no re-selection by the user. -/
theorem upload_error_overwritten_cex :
    uploadChangeFlowResult "a.mp4" (Except.error "Network error") =
      setLocalInputState .error "a.mp4" 0 ∧
    videoUploadChangeFinal "a.mp4" (Except.error "Network error") .failure =
      setLocalInputState .empty "" 0 ∧
    (videoUploadChangeFinal "a.mp4" (Except.error "Network error") .failure).mode ≠
      UploadMode.error := by
  decide

/-- C8 amended: a failed upload transitions the session to
`Error(originalFileName)` with no retry, but the state persists only until the
`finally`-block reconciliation pull settles: that pull then replaces it with
`Empty` (server cache not ready) or `Ready(serverName)` (server cache ready). -/
theorem upload_failure_flow (file msg : String) (pull : PullResult) :
    uploadChangeFlowResult file (Except.error msg) =
      setLocalInputState .error file 0 ∧
    videoUploadChangeFinal file (Except.error msg) pull =
      refreshLocalInputState pull (setLocalInputState .error file 0) ∧
    (pullReportsReady pull = false →
      videoUploadChangeFinal file (Except.error msg) pull =
        setLocalInputState .empty "" 0) ∧
    (∀ st n, pull = PullResult.success st (some n) → st = "ready" → n ≠ "" →
      videoUploadChangeFinal file (Except.error msg) pull =
        setLocalInputState .ready n 100) := by
  refine ⟨rfl, rfl, ?_, ?_⟩
  · intro h
    cases pull with
    | failure => rfl
    | success st name? =>
        cases name? with
        | none => rfl
        | some name =>
            simp only [videoUploadChangeFinal, uploadChangeFlowResult,
              refreshLocalInputState]
            rw [if_neg]
            intro hc
            simp only [pullReportsReady] at h
            exact Bool.false_ne_true (h.symm.trans hc)
  · intro st n hpull hst hn
    subst hpull
    subst hst
    simp only [videoUploadChangeFinal, uploadChangeFlowResult,
      refreshLocalInputState]
    rw [if_pos]
    simp [hn]

/-- C8 witness: with a failed pull after the failed upload, the handler
settles in `Empty`. -/
theorem upload_failure_flow_witness :
    videoUploadChangeFinal "a.mp4" (Except.error "HTTP 500") PullResult.failure =
      setLocalInputState .empty "" 0 :=
  (upload_failure_flow "a.mp4" "HTTP 500" PullResult.failure).2.2.1 (by decide)

/-- C9: the close handler schedules exactly one reconnect, with the fixed
3000 ms (3 × 1000) delay, so the retry fires strictly later than the closure
(never immediately); the error handler schedules none; and the open handler
emits the synthetic connected line, which is discrete and therefore always
appends a new entry to the consolidator buffer. -/
theorem ws_reconnect_policy :
    wsOnClose.filter isScheduleReconnect = [WsEffect.scheduleReconnect 3000] ∧
    wsOnError.filter isScheduleReconnect = [] ∧
    wsOnOpen.filter isScheduleReconnect = [] ∧
    (∀ t : Nat, reconnectFireTime t = t + 3 * 1000 ∧ t < reconnectFireTime t) ∧
    WsEffect.emitLog ">> 日志服务已连接" ∈ wsOnOpen ∧
    isProgressLine ">> 日志服务已连接" = false ∧
    (∀ buf, logStep buf ">> 日志服务已连接" = buf ++ [">> 日志服务已连接"]) := by
  refine ⟨by decide, by decide, by decide, ?_, by decide, by decide, ?_⟩
  · intro t
    refine ⟨rfl, ?_⟩
    simp [reconnectFireTime]
  · intro buf
    exact logStep_discrete buf ">> 日志服务已连接" (by decide) (by decide)

end VideoSubX
